import Mathlib

/-!
Verification of `draw_magnets.py`, a beamline schematic generator
(MERGS electron optics).  The file shallowly embeds the program:

* the parameter parser (`parse_parameters`, with Python regex matching and
  `float(...)` literal parsing modelled faithfully over `ℚ`),
* the number formatter and path serializer of `write_SVG`
  (`format_number`, `path_d`), where the distinction Python makes between
  `int` and `float` values is kept, because applying the integer format
  code `d` to a `float` raises `ValueError`,
* the geometry pipeline (`draw_plane`, `draw_drift_length`,
  `draw_multipole_magnet`, `draw_bending_magnet`, `evaluate_polynomial`)
  over `ℝ`, with `numpy` arrays rendered as Lean lists (elementwise
  broadcasting becomes `List.map`, boolean-mask selection becomes
  `List.filter`).

Machine floats are idealized as exact rationals/reals; all claims below
concern exact values or structural properties that are insensitive to
rounding.
-/

namespace DrawMagnets

/-! ### Parameter parser (`parse_parameters`, source lines 106-113) -/

/-- Python regex `\s` character class (the line splitter and matcher use it). -/
def isPySpace (c : Char) : Bool :=
  c = ' ' || c = '\t' || c = '\n' || c = '\x0b' || c = '\x0c' || c = '\r'

/-- Character class `[a-z0-9_]` under `re.IGNORECASE`. -/
def isIdentChar (c : Char) : Bool :=
  ('a' ≤ c && c ≤ 'z') || ('A' ≤ c && c ≤ 'Z') || ('0' ≤ c && c ≤ '9') || c = '_'

/-- Character class `[-+0-9.e]` under `re.IGNORECASE`. -/
def isValueChar (c : Char) : Bool :=
  c = '-' || c = '+' || ('0' ≤ c && c ≤ '9') || c = '.' || c = 'e' || c = 'E'

/-- Python `re.split(r"\r?\n", output)`: split at `\n`, consuming one `\r`
directly before it; a lone `\r` is not a delimiter. -/
def split_rn : List Char → List (List Char)
  | [] => [[]]
  | '\r' :: '\n' :: rest => [] :: split_rn rest
  | '\n' :: rest => [] :: split_rn rest
  | c :: rest =>
    match split_rn rest with
    | [] => [[c]]
    | l :: ls => (c :: l) :: ls

/-- The match `re.match(r"^\s*([a-z0-9_]+)\s*:=\s*([-+0-9.e]+);$", line, re.IGNORECASE)`.
The character classes involved are pairwise disjoint from the literal
separators, so greedy matching without backtracking is exact.  Returns the
two capture groups on success. -/
def match_line (line : List Char) : Option (List Char × List Char) :=
  let rest0 := line.dropWhile isPySpace
  let key := rest0.takeWhile isIdentChar
  let rest1 := rest0.dropWhile isIdentChar
  if key.isEmpty then none else
  match rest1.dropWhile isPySpace with
  | ':' :: '=' :: rest2 =>
    let rest3 := rest2.dropWhile isPySpace
    let value := rest3.takeWhile isValueChar
    if value.isEmpty then none else
    match rest3.dropWhile isValueChar with
    | [';'] => some (key, value)
    | _ => none
  | _ => none

/-- Digit run to a natural number. -/
def digitsToNat (ds : List Char) : ℕ :=
  ds.foldl (fun n c => 10 * n + (c.toNat - 48)) 0

/-- Python `float(value)` on a string drawn from `[-+0-9.eE]` (so the
`inf`/`nan` spellings and digit-group underscores are unreachable):
optional sign, then a mantissa `d+ | d+.d* | .d+`, then an optional
exponent `e|E [sign] d+`; anything else raises `ValueError` (here: `none`). -/
def pyFloat (s : List Char) : Option ℚ :=
  let cs := s.dropWhile isPySpace
  let cs := (cs.reverse.dropWhile isPySpace).reverse
  let sign : ℚ × List Char :=
    match cs with
    | '-' :: rest => (-1, rest)
    | '+' :: rest => (1, rest)
    | _ => (1, cs)
  let ip := sign.2.takeWhile Char.isDigit
  let cs1 := sign.2.dropWhile Char.isDigit
  let frac : List Char × List Char :=
    match cs1 with
    | '.' :: rest => (rest.takeWhile Char.isDigit, rest.dropWhile Char.isDigit)
    | _ => ([], cs1)
  if ip.isEmpty && frac.1.isEmpty then none else
  let mant : ℚ := (digitsToNat ip : ℚ) + (digitsToNat frac.1 : ℚ) / (10 : ℚ) ^ frac.1.length
  match frac.2 with
  | [] => some (sign.1 * mant)
  | c :: rest =>
    if c = 'e' || c = 'E' then
      let esign : ℤ × List Char :=
        match rest with
        | '-' :: r => (-1, r)
        | '+' :: r => (1, r)
        | _ => (1, rest)
      let ed := esign.2.takeWhile Char.isDigit
      if ed.isEmpty then none else
      match esign.2.dropWhile Char.isDigit with
      | [] => some (sign.1 * mant * (10 : ℚ) ^ (esign.1 * (digitsToNat ed : ℤ)))
      | _ => none
    else none

/-- Python dict assignment `parameters[key] = value`: replace in place if the
key exists, else append. -/
def upsert (params : List (String × ℚ)) (k : String) (v : ℚ) : List (String × ℚ) :=
  match params with
  | [] => [(k, v)]
  | (k0, v0) :: rest => if k0 = k then (k0, v) :: rest else (k0, v0) :: upsert rest k v

/-- The function `parse_parameters` (source lines 106-113): for each line of the input,
if the line matches the pattern, convert the value text with `float` and
store it; a `float` failure propagates as a raised `ValueError`
(modelled by `Except.error`); non-matching lines are silently ignored. -/
def parse_parameters (output : String) : Except String (List (String × ℚ)) :=
  (split_rn output.data).foldlM
    (fun params line =>
      match match_line line with
      | some kv =>
        match pyFloat kv.2 with
        | some q => Except.ok (upsert params (String.mk kv.1) q)
        | none => Except.error ("could not convert string to float: " ++ String.mk kv.2)
      | none => Except.ok params)
    []

/-! ### Number formatting and path serialization (`format_number`,
`write_SVG`, source lines 283-298) -/

/-- A Python numeric operand of a draw command: the program puts both `int`
literals (the arc flags) and `float` computation results into command
argument lists, and `format_number` behaves differently on the two types. -/
inductive PyNum
  | int (n : ℤ)
  | float (q : ℚ)
deriving DecidableEq

/-- The numeric value of an operand. -/
def PyNum.val : PyNum → ℚ
  | .int n => n
  | .float q => q

/-- Python `int(x)`: truncation toward zero. -/
def pyInt (q : ℚ) : ℤ := if q < 0 then ⌈q⌉ else ⌊q⌋

/-- Round-half-even of a nonnegative rational to a natural number, as used
by Python fixed-point formatting. -/
def roundHalfEven (t : ℚ) : ℕ :=
  let f := ⌊t⌋.toNat
  let r := t - f
  if r < 1/2 then f
  else if 1/2 < r then f + 1
  else if f % 2 = 0 then f else f + 1

/-- Left-pad a numeral string with zeros to 6 digits. -/
def padSix (s : String) : String :=
  String.mk (List.replicate (6 - s.length) '0') ++ s

/-- Python fixed-point formatting with format spec `.6f` on an exact value:
fixed six decimal places. -/
def formatFixedSix (q : ℚ) : String :=
  let m := roundHalfEven (|q| * 10 ^ 6)
  (if q < 0 then "-" else "") ++ toString (m / 10 ^ 6) ++ "." ++ padSix (toString (m % 10 ^ 6))

/-- The function `format_number` (source lines 294-298): when `x == int(x)`
it formats `x` with the integer format code `d`, which succeeds only when
`x` is an `int`: the format code `d` applied to a `float` raises
`ValueError` even when the value is integral. -/
def format_number (x : PyNum) : Except String String :=
  if x.val = (pyInt x.val : ℚ) then
    match x with
    | .int n => Except.ok (toString n)
    | .float _ => Except.error "Unknown format code d for object of type float"
  else Except.ok (formatFixedSix x.val)

/-- The `d`-attribute construction of `write_SVG` (source line 284):
`" ".join(tipe + ",".join(format_number(arg) for arg in args) ...)`,
with a `format_number` failure propagating as a raised exception. -/
def path_d (commands : List (String × List PyNum)) : Except String String := do
  let parts ← commands.mapM (fun c => do
    let args ← c.2.mapM format_number
    pure (c.1 ++ String.intercalate "," args))
  pure (String.intercalate " " parts)

/-! ### Geometry model (`Path`, element renderers, source lines 116-268) -/

open Real

/-- A path record (source class `Path`, lines 301-305): a shape class, an
ordered list of draw commands — each a tag (`"M"`, `"L"`, `"A"`, `"Z"`)
with numeric operands — and a stacking order. -/
structure Path where
  klass : String
  commands : List (String × List ℝ)
  zorder : ℤ

/-- The constant `CENTRAL_ENERGY = 13.5` (source line 39). -/
noncomputable def CENTRAL_ENERGY : ℝ := 13.5

/-- The loop `for i, coefficient in enumerate(coefficients): y += coefficient*x**i`
(source lines 243-244 / 248-249 / 255-256), as an accumulating recursion with
running index `i`. -/
noncomputable def poly_value (t : ℝ) : ℕ → List ℝ → ℝ
  | _, [] => 0
  | i, c :: rest => c * t ^ i + poly_value t (i + 1) rest

/-- The loop `m += coefficient*i*breakpoint**(i - 1)` (source lines 250 / 257);
the exponent `i - 1` is the Python integer `-1` at `i = 0` (the term is then
multiplied by `i = 0`).  This version totalizes the power: Lean `zpow` has
`0 ^ (-1) = 0`, whereas Python raises `ZeroDivisionError` on `0.0 ** -1`, so
at a breakpoint equal to exactly `0.0` with a nonempty coefficient list the
program raises rather than returning a value.  The raising behaviour is
modelled faithfully by `poly_slope_checked` and `evaluate_polynomial_checked`
below; this total version agrees with it at every nonzero breakpoint
(`poly_slope_checked_ok`, `evaluate_polynomial_checked_ok`). -/
noncomputable def poly_slope (t : ℝ) : ℕ → List ℝ → ℝ
  | _, [] => 0
  | i, c :: rest => c * i * t ^ ((i : ℤ) - 1) + poly_slope t (i + 1) rest

/-- The function `evaluate_polynomial` (source lines 237-268), pointwise in the sample `x`
(the source broadcasts over a `numpy` array; `numpy.where` acts elementwise).
The default breakpoints `±inf` are omitted: every call in this development
passes explicit finite breakpoints, as the program does. -/
noncomputable def evaluate_polynomial
    (x : ℝ) (coefficients : List ℝ) (lower_breakpoint upper_breakpoint : ℝ) : ℝ :=
  let y_middle := poly_value x 0 coefficients
  let y_lower := poly_slope lower_breakpoint 0 coefficients * (x - lower_breakpoint)
      + poly_value lower_breakpoint 0 coefficients
  let y_upper := poly_slope upper_breakpoint 0 coefficients * (x - upper_breakpoint)
      + poly_value upper_breakpoint 0 coefficients
  if x < lower_breakpoint then y_lower
  else if x < upper_breakpoint then y_middle
  else y_upper

/-- Python float power with an integer exponent, as in `breakpoint**(i - 1)`:
raising `0.0` to a negative power raises `ZeroDivisionError`; otherwise the
value is the real power. -/
noncomputable def pyPow (b : ℝ) (e : ℤ) : Except String ℝ :=
  if b = 0 ∧ e < 0 then Except.error "0.0 cannot be raised to a negative power"
  else Except.ok (b ^ e)

/-- The slope loop of `evaluate_polynomial` with the Python power error kept:
`coefficient*i*t**(i - 1)` computes `t**(-1)` at `i = 0` before the
multiplication by `i = 0`, so a breakpoint `t = 0.0` raises when the
coefficient list is nonempty. -/
noncomputable def poly_slope_checked (t : ℝ) : ℕ → List ℝ → Except String ℝ
  | _, [] => Except.ok 0
  | i, c :: rest => do
    let p ← pyPow t ((i : ℤ) - 1)
    let s ← poly_slope_checked t (i + 1) rest
    pure (c * i * p + s)

/-- The function `evaluate_polynomial` (source lines 237-268) with Python
error semantics: both slope loops run before the `numpy.where` branch
selection, so a zero breakpoint with a nonempty coefficient list raises
`ZeroDivisionError` whatever the sample (the lower loop runs first). -/
noncomputable def evaluate_polynomial_checked
    (x : ℝ) (coefficients : List ℝ) (lower_breakpoint upper_breakpoint : ℝ) :
    Except String ℝ := do
  let y_middle := poly_value x 0 coefficients
  let m_lower ← poly_slope_checked lower_breakpoint 0 coefficients
  let y_lower := m_lower * (x - lower_breakpoint)
      + poly_value lower_breakpoint 0 coefficients
  let m_upper ← poly_slope_checked upper_breakpoint 0 coefficients
  let y_upper := m_upper * (x - upper_breakpoint)
      + poly_value upper_breakpoint 0 coefficients
  pure (if x < lower_breakpoint then y_lower
    else if x < upper_breakpoint then y_middle
    else y_upper)

/-- Model of `numpy.linspace(a, b, num)`: `num` evenly spaced samples from `a` to `b`
inclusive. -/
noncomputable def linspace (a b : ℝ) (num : ℕ) : List ℝ :=
  (List.range num).map (fun i : ℕ => a + (b - a) * (i : ℝ) / ((num : ℝ) - 1))

/-- Model of `numpy.hypot(a, b)`. -/
noncomputable def hypot (a b : ℝ) : ℝ := Real.sqrt (a ^ 2 + b ^ 2)

/-- The quantity `central_momentum` (source line 168). -/
noncomputable def central_momentum : ℝ := (0.5110 + CENTRAL_ENERGY) * 1.602e-13 / 2.998e8

/-- The quantity `central_bend_radius` (source line 169). -/
noncomputable def central_bend_radius (field : ℝ) : ℝ :=
  central_momentum / (1.602e-19 * field)

/-- The quantity `bend_angle` (source line 170). -/
noncomputable def bend_angle (length field : ℝ) : ℝ :=
  length / central_bend_radius field

/-- The single path appended by `draw_plane` (source lines 116-125).
`right` defaults to `left` when absent (`if right is None: right = left`). -/
noncomputable def planePaths (x y θ left : ℝ) (right : Option ℝ) : List Path :=
  let r := right.getD left
  [⟨"plane",
    [("M", [x + left * sin θ, y - left * cos θ]),
     ("L", [x - r * sin θ, y + r * cos θ])],
    1⟩]

/-- The renderer `draw_plane`: appends its path; returns nothing (no ray-state change). -/
noncomputable def draw_plane (graphic : List Path) (x y θ left : ℝ) (right : Option ℝ) :
    List Path :=
  graphic ++ planePaths x y θ left right

/-- The single path appended by `draw_drift_length` (source lines 128-138). -/
noncomputable def driftPaths (x y θ length : ℝ) : List Path :=
  [⟨"central-ray",
    [("M", [x, y]),
     ("L", [x + length * cos θ, y + length * sin θ])],
    2⟩]

/-- The renderer `draw_drift_length`: appends its path and returns the new endpoint
`line[-1][1]`. -/
noncomputable def draw_drift_length (graphic : List Path) (x y θ length : ℝ) :
    List Path × ℝ × ℝ :=
  (graphic ++ driftPaths x y θ length, x + length * cos θ, y + length * sin θ)

/-- The two paths appended by `draw_multipole_magnet` (source lines 141-157):
the rectangular iron block and the central-ray segment. -/
noncomputable def multipolePaths (x y θ length radius : ℝ) : List Path :=
  [⟨"magnet",
    [("M", [x + radius * sin θ, y - radius * cos θ]),
     ("L", [x - radius * sin θ, y + radius * cos θ]),
     ("L", [x - radius * sin θ + length * cos θ, y + radius * cos θ + length * sin θ]),
     ("L", [x + radius * sin θ + length * cos θ, y - radius * cos θ + length * sin θ]),
     ("Z", [])],
    1⟩,
   ⟨"central-ray",
    [("M", [x, y]),
     ("L", [x + length * cos θ, y + length * sin θ])],
    2⟩]

/-- The renderer `draw_multipole_magnet`: appends its two paths, returns
the endpoint `line[-1][1]`. -/
noncomputable def draw_multipole_magnet (graphic : List Path) (x y θ length radius : ℝ) :
    List Path × ℝ × ℝ :=
  (graphic ++ multipolePaths x y θ length radius,
   x + length * cos θ, y + length * sin θ)

/-- The 21 sampled entry-face (back) pole-face points (source lines 177-182):
`ξ = linspace(min_ext - rc, max_ext - rc, 21)`, `ζ_back` from the entry-face
shape coefficients `[0] + in_shape_parameters`, then the rotation into
absolute coordinates using the entry heading `θ`. -/
noncomputable def back_samples (x y θ field min_bend_radius max_bend_radius gap_height : ℝ)
    (in_shape_parameters : List ℝ) : List (ℝ × ℝ) :=
  let rc := central_bend_radius field
  let xc := x - rc * sin θ
  let yc := y + rc * cos θ
  (linspace (min_bend_radius - 1.5 * gap_height - rc) (max_bend_radius + 1.5 * gap_height - rc) 21).map
    (fun ξi =>
      let ζ := evaluate_polynomial ξi ([0] ++ in_shape_parameters)
          (min_bend_radius - rc) (max_bend_radius - rc)
      (xc + (rc + ξi) * sin θ + ζ * cos θ, yc - (rc + ξi) * cos θ + ζ * sin θ))

/-- The 21 sampled exit-face (front) pole-face points (source lines 187-191):
`ζ_front` is the *negated* exit-face shape value, and the rotation uses the
exit heading `θ + bend_angle`. -/
noncomputable def front_samples (x y θ length field min_bend_radius max_bend_radius gap_height : ℝ)
    (out_shape_parameters : List ℝ) : List (ℝ × ℝ) :=
  let ba := bend_angle length field
  let rc := central_bend_radius field
  let xc := x - rc * sin θ
  let yc := y + rc * cos θ
  (linspace (min_bend_radius - 1.5 * gap_height - rc) (max_bend_radius + 1.5 * gap_height - rc) 21).map
    (fun ξi =>
      let ζ := -evaluate_polynomial ξi ([0] ++ out_shape_parameters)
          (min_bend_radius - rc) (max_bend_radius - rc)
      (xc + (rc + ξi) * sin (θ + ba) + ζ * cos (θ + ba),
       yc - (rc + ξi) * cos (θ + ba) + ζ * sin (θ + ba)))

/-- The boolean-mask selection `x_back[R_back <= max_extended_radius]`
(source lines 183-185): keep the sampled back-face points whose distance
from the bend center is at most the max extended radius. -/
noncomputable def filtered_back (x y θ field min_bend_radius max_bend_radius gap_height : ℝ)
    (in_shape_parameters : List ℝ) : List (ℝ × ℝ) :=
  let rc := central_bend_radius field
  let xc := x - rc * sin θ
  let yc := y + rc * cos θ
  (back_samples x y θ field min_bend_radius max_bend_radius gap_height in_shape_parameters).filter
    (fun p => decide (hypot (p.1 - xc) (p.2 - yc) ≤ max_bend_radius + 1.5 * gap_height))

/-- The boolean-mask selection for the front face (source lines 192-195). -/
noncomputable def filtered_front (x y θ length field min_bend_radius max_bend_radius gap_height : ℝ)
    (out_shape_parameters : List ℝ) : List (ℝ × ℝ) :=
  let rc := central_bend_radius field
  let xc := x - rc * sin θ
  let yc := y + rc * cos θ
  (front_samples x y θ length field min_bend_radius max_bend_radius gap_height out_shape_parameters).filter
    (fun p => decide (hypot (p.1 - xc) (p.2 - yc) ≤ max_bend_radius + 1.5 * gap_height))

/-- The closed iron-block polygon (source lines 197-218): start at the last
retained back-face point, arc along the max extended radius to the last
retained front-face point, walk the front face inward (`x_front[-2::-1]`),
line to the min-extended-radius point on the exit heading, arc back along
the min extended radius, walk the back face outward, and close.
(The source indexes `x_back[-1]`/`x_front[-1]`, raising `IndexError` on an
empty retained list; `getLastD` supplies a dummy in that degenerate case.) -/
noncomputable def bendBlock (x y θ length field min_bend_radius max_bend_radius gap_height : ℝ)
    (in_shape_parameters out_shape_parameters : List ℝ) : Path :=
  let ba := bend_angle length field
  let rc := central_bend_radius field
  let xc := x - rc * sin θ
  let yc := y + rc * cos θ
  let min_ext := min_bend_radius - 1.5 * gap_height
  let max_ext := max_bend_radius + 1.5 * gap_height
  let back := filtered_back x y θ field min_bend_radius max_bend_radius gap_height in_shape_parameters
  let front := filtered_front x y θ length field min_bend_radius max_bend_radius gap_height out_shape_parameters
  ⟨"magnet",
    [("M", [(back.getLastD (0, 0)).1, (back.getLastD (0, 0)).2]),
     ("A", [max_ext, max_ext, 0, if ba > π then 1 else 0, 1,
            (front.getLastD (0, 0)).1, (front.getLastD (0, 0)).2])]
    ++ (front.dropLast.reverse.map (fun p => ("L", [p.1, p.2])))
    ++ [("L", [xc + min_ext * sin (θ + ba), yc - min_ext * cos (θ + ba)]),
        ("A", [min_ext, min_ext, 0, if ba > π then 1 else 0, 0,
               xc + min_ext * sin θ, yc - min_ext * cos θ])]
    ++ (back.map (fun p => ("L", [p.1, p.2])))
    ++ [("Z", [])],
    1⟩

/-- One reference arc of the loop at source lines 220-230: from the point at
`θ` around the bend center to the point at `θ + bend_angle`. -/
noncomputable def ref_arc (x_center y_center θ ba radius : ℝ) (klass : String) : Path :=
  ⟨klass,
    [("M", [x_center + radius * sin θ, y_center - radius * cos θ]),
     ("A", [radius, radius, 0, if ba > π then 1 else 0, 1,
            x_center + radius * sin (θ + ba), y_center - radius * cos (θ + ba)])],
    2⟩

/-- The four paths appended by `draw_bending_magnet`, in append order:
the iron block, then the max-radius guide, min-radius guide and
central-radius reference arcs (source lines 218-230). -/
noncomputable def bendPaths (x y θ length field min_bend_radius max_bend_radius gap_height : ℝ)
    (in_shape_parameters out_shape_parameters : List ℝ) : List Path :=
  let ba := bend_angle length field
  let rc := central_bend_radius field
  let xc := x - rc * sin θ
  let yc := y + rc * cos θ
  [bendBlock x y θ length field min_bend_radius max_bend_radius gap_height
     in_shape_parameters out_shape_parameters,
   ref_arc xc yc θ ba max_bend_radius "guide",
   ref_arc xc yc θ ba min_bend_radius "guide",
   ref_arc xc yc θ ba rc "central-ray"]

/-- The renderer `draw_bending_magnet` (source lines 163-234): appends its four paths and
returns the new ray state; the returned position is `arc[-1][1][-2:]`, the
endpoint operand pair of the central-radius arc, and the new heading is
`θ + bend_angle`. -/
noncomputable def draw_bending_magnet (graphic : List Path)
    (x y θ length field min_bend_radius max_bend_radius gap_height : ℝ)
    (in_shape_parameters out_shape_parameters : List ℝ) :
    List Path × ℝ × ℝ × ℝ :=
  let ba := bend_angle length field
  let rc := central_bend_radius field
  let xc := x - rc * sin θ
  let yc := y + rc * cos θ
  (graphic ++ bendPaths x y θ length field min_bend_radius max_bend_radius gap_height
     in_shape_parameters out_shape_parameters,
   xc + rc * sin (θ + ba), yc - rc * cos (θ + ba), θ + ba)

/-- The serializer ordering (source line 283):
`sorted(paths, key=lambda path: path.zorder)`, a stable ascending sort. -/
noncomputable def sortPaths (paths : List Path) : List Path :=
  paths.mergeSort (fun a b => decide (a.zorder ≤ b.zorder))

/-- The stacking-order discipline of the four renderers: magnet bodies and
plane markers at z-order 1, central rays and guides at z-order 2. -/
def zorderOK (p : Path) : Prop :=
  ((p.klass = "magnet" ∨ p.klass = "plane") ∧ p.zorder = 1) ∨
  ((p.klass = "central-ray" ∨ p.klass = "guide") ∧ p.zorder = 2)

/-! ### Helper lemmas -/

/-- A polynomial whose only coefficient is zero evaluates to zero in every
branch of the breakpoint case split. -/
theorem evaluate_polynomial_single_zero (x lb ub : ℝ) :
    evaluate_polynomial x [0] lb ub = 0 := by
  simp [evaluate_polynomial, poly_value, poly_slope]

/-- Bind of a success value in the error monad used by the checked evaluator. -/
theorem ok_bind {α β : Type} (a : α) (f : α → Except String β) :
    (Except.ok a : Except String α) >>= f = f a := rfl

/-- At a nonzero breakpoint the checked slope loop never raises and agrees
with the total `poly_slope`. -/
theorem poly_slope_checked_ok (t : ℝ) (ht : t ≠ 0) :
    ∀ (i : ℕ) (cs : List ℝ), poly_slope_checked t i cs = Except.ok (poly_slope t i cs) := by
  intro i cs
  induction cs generalizing i with
  | nil => rfl
  | cons c rest ih =>
    have hp : pyPow t ((i : ℤ) - 1) = Except.ok (t ^ ((i : ℤ) - 1)) := by
      unfold pyPow
      rw [if_neg]
      rintro ⟨h0, _⟩
      exact ht h0
    simp only [poly_slope_checked, poly_slope, hp, ih, ok_bind]
    rfl

/-- Away from zero breakpoints, the checked evaluator succeeds and agrees
with the total `evaluate_polynomial` used in the geometry model. -/
theorem evaluate_polynomial_checked_ok (x : ℝ) (coefficients : List ℝ)
    (lower_breakpoint upper_breakpoint : ℝ)
    (hl : lower_breakpoint ≠ 0) (hu : upper_breakpoint ≠ 0) :
    evaluate_polynomial_checked x coefficients lower_breakpoint upper_breakpoint =
      Except.ok (evaluate_polynomial x coefficients lower_breakpoint upper_breakpoint) := by
  simp only [evaluate_polynomial_checked, evaluate_polynomial,
    poly_slope_checked_ok lower_breakpoint hl, poly_slope_checked_ok upper_breakpoint hu,
    ok_bind]
  rfl

/-! ### Claims -/

/-- C1 counterexample: with coefficients `[0, 2, 0]` (the line `y = 2x`) and
breakpoints `[-1, 1]`, the evaluator returns `-4` at the sample `-2` —
the linear tail anchored at `(-1, -2)` with slope `2` — not `-2` as claimed. -/
theorem evaluate_polynomial_at_minus_two_not_minus_two :
    evaluate_polynomial (-2) [0, 2, 0] (-1) 1 = -4 ∧
    evaluate_polynomial (-2) [0, 2, 0] (-1) 1 ≠ -2 := by
  norm_num [evaluate_polynomial, poly_value, poly_slope]

/-- C1 (amended): with coefficients `[0, 2, 0]` and breakpoints `[-1, 1]`,
the evaluator yields `-2, 0, 2` at the samples `-1, 0, 1` (continuous match
between branches at the seams) and `-4` at `-2` (the slope continues at 2,
so the linear extrapolation reaches `-2 + 2·(-1) = -4`). -/
theorem evaluate_polynomial_seam_values :
    evaluate_polynomial (-1) [0, 2, 0] (-1) 1 = -2 ∧
    evaluate_polynomial 0 [0, 2, 0] (-1) 1 = 0 ∧
    evaluate_polynomial 1 [0, 2, 0] (-1) 1 = 2 ∧
    evaluate_polynomial (-2) [0, 2, 0] (-1) 1 = -4 := by
  norm_num [evaluate_polynomial, poly_value, poly_slope]

/-- C2: `format_number` evaluated at exact-integer `float` operands such as
`0.0` and `3.0` raises (the integer format code `d` rejects a `float`), so the
serializer fails on any draw command containing such an operand; `int`
operands and non-integral `float` operands do format as the spec says. -/
theorem format_number_integral_float_raises :
    format_number (.float 0) = Except.error "Unknown format code d for object of type float" ∧
    format_number (.float 3) = Except.error "Unknown format code d for object of type float" ∧
    format_number (.int 0) = Except.ok "0" ∧
    format_number (.float (3/2)) = Except.ok "1.500000" ∧
    path_d [("M", [.float 0, .float 3])] =
      Except.error "Unknown format code d for object of type float" := by
  refine ⟨by simp [format_number, PyNum.val, pyInt], ?_, by rfl, ?_, by rfl⟩
  · simp [format_number, PyNum.val, pyInt]
  · have h1 : pyInt (3/2) = 1 := by norm_num [pyInt]
    have ha : |(3/2 : ℚ)| = 3/2 := by norm_num
    have hf : ⌊(3/2 : ℚ) * 10 ^ 6⌋ = 1500000 := by norm_num
    have h2 : roundHalfEven (|(3/2 : ℚ)| * 10 ^ 6) = 1500000 := by
      simp [roundHalfEven, ha, hf]
      norm_num
    simp [format_number, PyNum.val, h1, formatFixedSix, h2]
    norm_num
    rfl

/-- C9: the line `x := 1.2.3;` matches the accepted pattern
`identifier := literal;` (its value text is drawn from `[-+0-9.e]`), but
`float("1.2.3")` is invalid, so `parse_parameters` raises a `ValueError`
instead of ignoring the line or storing an entry. -/
theorem parse_parameters_invalid_literal_raises :
    match_line ("x := 1.2.3;".data) = some ("x".data, "1.2.3".data) ∧
    pyFloat ("1.2.3".data) = none ∧
    parse_parameters "x := 1.2.3;" =
      Except.error "could not convert string to float: 1.2.3" := by
  exact ⟨rfl, rfl, rfl⟩

/-- C4: the bending-magnet renderer computes
`momentum = (0.5110 + 13.5) * 1.602e-13 / 2.998e8` (energy-unit conversion
over the speed of light), `central_bend_radius = momentum / (1.602e-19 * field)`
and `bend_angle = length / central_bend_radius`, and the heading it returns
advances by exactly that bend angle. -/
theorem bending_magnet_momentum_radius_angle :
    central_momentum = (0.5110 + 13.5) * 1.602e-13 / 2.998e8 ∧
    (∀ field : ℝ, central_bend_radius field = central_momentum / (1.602e-19 * field)) ∧
    (∀ length field : ℝ, bend_angle length field = length / central_bend_radius field) ∧
    (∀ (graphic : List Path) (x y θ length field minr maxr gap : ℝ) (inp outp : List ℝ),
      (draw_bending_magnet graphic x y θ length field minr maxr gap inp outp).2.2.2 =
        θ + bend_angle length field) :=
  ⟨rfl, fun _ => rfl, fun _ _ => rfl, fun _ _ _ _ _ _ _ _ _ _ _ => rfl⟩

/-- C5: for every starting ray state and parameters, the bending-magnet
renderer returns heading `θ + bend_angle` and position
`(x_center + r·sin(θ+bend_angle), y_center - r·cos(θ+bend_angle))`, with
`(x_center, y_center)` the bend center and `r` the central bend radius —
the endpoint of the appended central-radius reference arc. -/
theorem bending_magnet_exit_state (graphic : List Path)
    (x y θ length field minr maxr gap : ℝ) (inp outp : List ℝ) :
    (draw_bending_magnet graphic x y θ length field minr maxr gap inp outp).2.1 =
      (x - central_bend_radius field * sin θ)
        + central_bend_radius field * sin (θ + bend_angle length field) ∧
    (draw_bending_magnet graphic x y θ length field minr maxr gap inp outp).2.2.1 =
      (y + central_bend_radius field * cos θ)
        - central_bend_radius field * cos (θ + bend_angle length field) ∧
    (draw_bending_magnet graphic x y θ length field minr maxr gap inp outp).2.2.2 =
      θ + bend_angle length field ∧
    ref_arc (x - central_bend_radius field * sin θ) (y + central_bend_radius field * cos θ)
        θ (bend_angle length field) (central_bend_radius field) "central-ray" ∈
      (draw_bending_magnet graphic x y θ length field minr maxr gap inp outp).1 := by
  refine ⟨rfl, rfl, rfl, ?_⟩
  simp [draw_bending_magnet, bendPaths]

/-- C6 counterexample: the claim quantifies over every pair of finite
breakpoints with lower ≤ upper, but at the breakpoints `0 ≤ 1` with
coefficients `[0, 2, 0]` the evaluator raises `ZeroDivisionError` — the
slope loop computes `0.0 ** -1` at `i = 0` — instead of returning the plain
polynomial value at the sample `1`. -/
theorem evaluate_polynomial_zero_breakpoint_raises :
    (0 : ℝ) ≤ 1 ∧
    evaluate_polynomial_checked 1 [0, 2, 0] 0 1 =
      Except.error "0.0 cannot be raised to a negative power" ∧
    evaluate_polynomial_checked 1 [0, 2, 0] 0 1 ≠
      Except.ok (poly_value 1 0 [0, 2, 0]) := by
  have hp : pyPow (0 : ℝ) (((0 : ℕ) : ℤ) - 1) =
      Except.error "0.0 cannot be raised to a negative power" := by
    unfold pyPow
    rw [if_pos]
    exact ⟨rfl, by norm_num⟩
  have hs : poly_slope_checked (0 : ℝ) 0 [0, 2, 0] =
      Except.error "0.0 cannot be raised to a negative power" := by
    simp only [poly_slope_checked, hp]
    rfl
  have he : evaluate_polynomial_checked 1 [0, 2, 0] 0 1 =
      Except.error "0.0 cannot be raised to a negative power" := by
    simp only [evaluate_polynomial_checked, hs]
    rfl
  refine ⟨by norm_num, he, ?_⟩
  rw [he]
  simp

/-- C6 (amended): for every coefficient list and every pair of finite
*nonzero* breakpoints with lower ≤ upper, evaluating exactly at the upper
breakpoint succeeds and returns the plain polynomial value `Σ c[i]·ξ^i`
(the middle-branch value: the sample falls in the upper branch by the strict
`<` convention, but the linear tail is anchored there, so the output is
continuous at the seam).  At a breakpoint equal to exactly `0` with a
nonempty coefficient list the program instead raises `ZeroDivisionError`. -/
theorem evaluate_polynomial_checked_at_upper_breakpoint (coefficients : List ℝ)
    (lower_breakpoint upper_breakpoint : ℝ) (h : lower_breakpoint ≤ upper_breakpoint)
    (hl : lower_breakpoint ≠ 0) (hu : upper_breakpoint ≠ 0) :
    evaluate_polynomial_checked upper_breakpoint coefficients
        lower_breakpoint upper_breakpoint =
      Except.ok (poly_value upper_breakpoint 0 coefficients) := by
  rw [evaluate_polynomial_checked_ok upper_breakpoint coefficients
    lower_breakpoint upper_breakpoint hl hu]
  unfold evaluate_polynomial
  rw [if_neg (not_lt.mpr h), if_neg (lt_irrefl upper_breakpoint)]
  congr 1
  ring

/-- C6 witness: a concrete instance with nonzero breakpoints `1 ≤ 2` and the
polynomial `1 + x`, whose value at the upper breakpoint is `3`. -/
theorem evaluate_polynomial_checked_at_upper_breakpoint_witness :
    (1 : ℝ) ≤ 2 ∧ (1 : ℝ) ≠ 0 ∧ (2 : ℝ) ≠ 0 ∧
    evaluate_polynomial_checked 2 [1, 1] 1 2 = Except.ok (poly_value 2 0 [1, 1]) ∧
    poly_value (2 : ℝ) 0 [1, 1] = 3 :=
  ⟨by norm_num, by norm_num, by norm_num,
   evaluate_polynomial_checked_at_upper_breakpoint [1, 1] 1 2
     (by norm_num) (by norm_num) (by norm_num),
   by norm_num [poly_value]⟩

/-- C8: every element renderer only appends: the path list it returns is the
input list followed by the new records, so every record present before the
call is present, unchanged and in the same relative order afterwards. -/
theorem renderers_append_only :
    (∀ (g : List Path) (x y θ left : ℝ) (right : Option ℝ),
      ∃ t, draw_plane g x y θ left right = g ++ t) ∧
    (∀ (g : List Path) (x y θ length : ℝ),
      ∃ t, (draw_drift_length g x y θ length).1 = g ++ t) ∧
    (∀ (g : List Path) (x y θ length radius : ℝ),
      ∃ t, (draw_multipole_magnet g x y θ length radius).1 = g ++ t) ∧
    (∀ (g : List Path) (x y θ length field minr maxr gap : ℝ) (inp outp : List ℝ),
      ∃ t, (draw_bending_magnet g x y θ length field minr maxr gap inp outp).1 = g ++ t) :=
  ⟨fun _ x y θ l r => ⟨planePaths x y θ l r, rfl⟩,
   fun _ x y θ len => ⟨driftPaths x y θ len, rfl⟩,
   fun _ x y θ len rad => ⟨multipolePaths x y θ len rad, rfl⟩,
   fun _ x y θ len f a b c inp outp => ⟨bendPaths x y θ len f a b c inp outp, rfl⟩⟩

/-- C3: every arc command appended by the bending-magnet renderer — the two
iron-block polygon arcs and the three reference arcs — carries a large-arc
flag (the fourth `A` operand) equal to `1` exactly when `bend_angle > π` and
`0` when `bend_angle ≤ π`: the flag bit toggles exactly at `π`. -/
theorem bend_arc_large_flag (x y θ length field minr maxr gap : ℝ) (inp outp : List ℝ)
    (p : Path) (hp : p ∈ bendPaths x y θ length field minr maxr gap inp outp)
    (c : String × List ℝ) (hc : c ∈ p.commands) (hA : c.1 = "A") :
    c.2[3]? = some (if bend_angle length field > π then 1 else 0) := by
  simp only [bendPaths, List.mem_cons, List.not_mem_nil, or_false] at hp
  rcases hp with rfl | rfl | rfl | rfl
  · simp only [bendBlock] at hc
    rcases List.mem_append.mp hc with h1 | h1
    on_goal 2 =>
      simp only [List.mem_cons, List.not_mem_nil, or_false] at h1
      subst h1
      simp at hA
    rcases List.mem_append.mp h1 with h2 | h2
    on_goal 2 =>
      obtain ⟨a, _, rfl⟩ := List.mem_map.mp h2
      simp at hA
    rcases List.mem_append.mp h2 with h3 | h3
    on_goal 2 =>
      simp only [List.mem_cons, List.not_mem_nil, or_false] at h3
      rcases h3 with rfl | rfl
      · simp at hA
      · rfl
    rcases List.mem_append.mp h3 with h4 | h4
    on_goal 2 =>
      obtain ⟨a, _, rfl⟩ := List.mem_map.mp h4
      simp at hA
    simp only [List.mem_cons, List.not_mem_nil, or_false] at h4
    rcases h4 with rfl | rfl
    · simp at hA
    · rfl
  all_goals
    simp only [ref_arc, List.mem_cons, List.not_mem_nil, or_false] at hc
  all_goals rcases hc with rfl | rfl
  all_goals first | rfl | simp at hA

/-- C3 witness: at the concrete input `θ = 0`, `length = field = 1`,
zero radii and gap, the max-radius guide arc of `bendPaths` carries the
toggling large-arc flag. -/
theorem bend_arc_large_flag_witness :
    ∃ p ∈ bendPaths 0 0 0 1 1 0 0 0 [] [], ∃ c ∈ p.commands,
      c.1 = "A" ∧ c.2[3]? = some (if bend_angle 1 1 > π then 1 else 0) := by
  have hp : ref_arc (0 - central_bend_radius 1 * sin 0) (0 + central_bend_radius 1 * cos 0)
      0 (bend_angle 1 1) (central_bend_radius 1) "central-ray" ∈
      bendPaths 0 0 0 1 1 0 0 0 [] [] := by
    simp only [bendPaths, List.mem_cons]
    right; right; right; left; trivial
  have hc : ("A", [central_bend_radius 1, central_bend_radius 1, 0,
      if bend_angle 1 1 > π then (1 : ℝ) else 0, 1,
      (0 - central_bend_radius 1 * sin 0) + central_bend_radius 1 * sin (0 + bend_angle 1 1),
      (0 + central_bend_radius 1 * cos 0) - central_bend_radius 1 * cos (0 + bend_angle 1 1)]) ∈
      (ref_arc (0 - central_bend_radius 1 * sin 0) (0 + central_bend_radius 1 * cos 0)
        0 (bend_angle 1 1) (central_bend_radius 1) "central-ray").commands := by
    simp only [ref_arc, List.mem_cons]
    right; left; trivial
  exact ⟨_, hp, _, hc, rfl, bend_arc_large_flag 0 0 0 1 1 0 0 0 [] [] _ hp _ hc rfl⟩

/-- C7: a sampled back-face (entry) or front-face (exit) pole-face point is
retained by the radial-clipping mask exactly when its `hypot` distance from
the bend center is at most the max extended radius `maxr + 1.5·gap`; points
farther out are omitted (the polygon is assembled from the filtered lists). -/
theorem pole_face_clipping (x y θ length field minr maxr gap : ℝ) (inp outp : List ℝ)
    (p q : ℝ × ℝ)
    (hp : p ∈ back_samples x y θ field minr maxr gap inp)
    (hq : q ∈ front_samples x y θ length field minr maxr gap outp) :
    (p ∈ filtered_back x y θ field minr maxr gap inp ↔
      hypot (p.1 - (x - central_bend_radius field * sin θ))
        (p.2 - (y + central_bend_radius field * cos θ)) ≤ maxr + 1.5 * gap) ∧
    (q ∈ filtered_front x y θ length field minr maxr gap outp ↔
      hypot (q.1 - (x - central_bend_radius field * sin θ))
        (q.2 - (y + central_bend_radius field * cos θ)) ≤ maxr + 1.5 * gap) := by
  constructor
  · simp [filtered_back, List.mem_filter, hp]
  · simp [filtered_front, List.mem_filter, hq]

/-- C7 witness: with `θ = 0`, unit field, zero radii/gap and zero shape
coefficients, the (repeated) sampled point `(0, central_bend_radius 1)` is a
back and front sample, and the theorem instantiates there. -/
theorem pole_face_clipping_witness :
    ((0 : ℝ), central_bend_radius 1) ∈ back_samples 0 0 0 1 0 0 0 [] ∧
    ((0 : ℝ), central_bend_radius 1) ∈ front_samples 0 0 0 1 1 0 0 0 [] ∧
    ((((0 : ℝ), central_bend_radius 1) ∈ filtered_back 0 0 0 1 0 0 0 [] ↔
      hypot (((0 : ℝ), central_bend_radius 1).1 - (0 - central_bend_radius 1 * sin 0))
        (((0 : ℝ), central_bend_radius 1).2 - (0 + central_bend_radius 1 * cos 0)) ≤ 0 + 1.5 * 0) ∧
     (((0 : ℝ), central_bend_radius 1) ∈ filtered_front 0 0 0 1 1 0 0 0 [] ↔
      hypot (((0 : ℝ), central_bend_radius 1).1 - (0 - central_bend_radius 1 * sin 0))
        (((0 : ℝ), central_bend_radius 1).2 - (0 + central_bend_radius 1 * cos 0)) ≤ 0 + 1.5 * 0)) := by
  have hp : ((0 : ℝ), central_bend_radius 1) ∈ back_samples 0 0 0 1 0 0 0 [] := by
    simp only [back_samples, linspace]
    refine List.mem_map.mpr
      ⟨_, List.mem_map.mpr ⟨0, List.mem_range.mpr (show (0 : ℕ) < 21 by norm_num), rfl⟩, ?_⟩
    simp only [List.append_nil, evaluate_polynomial_single_zero, Nat.cast_zero,
      Real.sin_zero, Real.cos_zero, Prod.mk.injEq]
    norm_num
  have hq : ((0 : ℝ), central_bend_radius 1) ∈ front_samples 0 0 0 1 1 0 0 0 [] := by
    simp only [front_samples, linspace]
    refine List.mem_map.mpr
      ⟨_, List.mem_map.mpr ⟨0, List.mem_range.mpr (show (0 : ℕ) < 21 by norm_num), rfl⟩, ?_⟩
    simp only [List.append_nil, evaluate_polynomial_single_zero, neg_zero, Nat.cast_zero,
      Real.sin_zero, Real.cos_zero, Prod.mk.injEq]
    norm_num
  exact ⟨hp, hq, pole_face_clipping 0 0 0 1 1 0 0 0 [] [] _ _ hp hq⟩

/-- C10: every path record appended by any renderer is a magnet body or
plane marker at stacking order 1, or a central-ray or guide at stacking
order 2; consequently the stable serializer sort by stacking order puts
every magnet body and plane marker before every central-ray and guide. -/
theorem zorder_discipline (p : Path)
    (hp : (∃ x y θ l r, p ∈ planePaths x y θ l r) ∨
          (∃ x y θ len, p ∈ driftPaths x y θ len) ∨
          (∃ x y θ len rad, p ∈ multipolePaths x y θ len rad) ∨
          (∃ x y θ len field minr maxr gap inp outp,
            p ∈ bendPaths x y θ len field minr maxr gap inp outp)) :
    zorderOK p ∧
    ∀ (l : List Path), (∀ q ∈ l, zorderOK q) →
      ∀ (i j : ℕ) (hi : i < (sortPaths l).length) (hj : j < (sortPaths l).length),
        i < j →
        ((sortPaths l).get ⟨i, hi⟩).klass = "central-ray" ∨
          ((sortPaths l).get ⟨i, hi⟩).klass = "guide" →
        ¬(((sortPaths l).get ⟨j, hj⟩).klass = "magnet" ∨
          ((sortPaths l).get ⟨j, hj⟩).klass = "plane") := by
  constructor
  · rcases hp with ⟨x, y, θ, l, r, hm⟩ | ⟨x, y, θ, len, hm⟩ |
      ⟨x, y, θ, len, rad, hm⟩ | ⟨x, y, θ, len, f, a, b, g, inp, outp, hm⟩
    · simp only [planePaths, List.mem_cons, List.not_mem_nil, or_false] at hm
      subst hm; exact Or.inl ⟨Or.inr rfl, rfl⟩
    · simp only [driftPaths, List.mem_cons, List.not_mem_nil, or_false] at hm
      subst hm; exact Or.inr ⟨Or.inl rfl, rfl⟩
    · simp only [multipolePaths, List.mem_cons, List.not_mem_nil, or_false] at hm
      rcases hm with rfl | rfl
      · exact Or.inl ⟨Or.inl rfl, rfl⟩
      · exact Or.inr ⟨Or.inl rfl, rfl⟩
    · simp only [bendPaths, List.mem_cons, List.not_mem_nil, or_false] at hm
      rcases hm with rfl | rfl | rfl | rfl
      · exact Or.inl ⟨Or.inl rfl, rfl⟩
      · exact Or.inr ⟨Or.inr rfl, rfl⟩
      · exact Or.inr ⟨Or.inr rfl, rfl⟩
      · exact Or.inr ⟨Or.inl rfl, rfl⟩
  · intro l hl i j hi hj hij hray hmag
    have hpw := @List.sorted_mergeSort Path
      (fun a b : Path => decide (a.zorder ≤ b.zorder))
      (fun a b c hab hbc => by
        simp only [decide_eq_true_eq] at hab hbc ⊢; omega)
      (fun a b => by
        simp only [Bool.or_eq_true, decide_eq_true_eq]; omega)
      l
    have hle : ((sortPaths l).get ⟨i, hi⟩).zorder ≤ ((sortPaths l).get ⟨j, hj⟩).zorder := by
      have := List.pairwise_iff_get.mp hpw ⟨i, hi⟩ ⟨j, hj⟩ hij
      simpa using this
    have hmem_i : (sortPaths l).get ⟨i, hi⟩ ∈ l :=
      (List.mergeSort_perm l _).mem_iff.mp (List.get_mem (sortPaths l) i hi)
    have hmem_j : (sortPaths l).get ⟨j, hj⟩ ∈ l :=
      (List.mergeSort_perm l _).mem_iff.mp (List.get_mem (sortPaths l) j hj)
    have hz_i : ((sortPaths l).get ⟨i, hi⟩).zorder = 2 := by
      rcases hl _ hmem_i with ⟨hk, _⟩ | ⟨_, hz⟩
      · rcases hray with h | h <;> rcases hk with h2 | h2 <;> rw [h] at h2 <;> simp at h2
      · exact hz
    have hz_j : ((sortPaths l).get ⟨j, hj⟩).zorder = 1 := by
      rcases hl _ hmem_j with ⟨_, hz⟩ | ⟨hk, _⟩
      · exact hz
      · rcases hmag with h | h <;> rcases hk with h2 | h2 <;> rw [h] at h2 <;> simp at h2
    omega

/-- C10 witness: the concrete plane-marker path appended by `draw_plane` at
the origin satisfies the stacking-order discipline, together with the sorted
serialization consequence. -/
theorem zorder_discipline_witness :
    zorderOK (Path.mk "plane"
      [("M", [0 + 1 * sin 0, 0 - 1 * cos 0]), ("L", [0 - 1 * sin 0, 0 + 1 * cos 0])] 1) ∧
    ∀ (l : List Path), (∀ q ∈ l, zorderOK q) →
      ∀ (i j : ℕ) (hi : i < (sortPaths l).length) (hj : j < (sortPaths l).length),
        i < j →
        ((sortPaths l).get ⟨i, hi⟩).klass = "central-ray" ∨
          ((sortPaths l).get ⟨i, hi⟩).klass = "guide" →
        ¬(((sortPaths l).get ⟨j, hj⟩).klass = "magnet" ∨
          ((sortPaths l).get ⟨j, hj⟩).klass = "plane") := by
  have hmem : Path.mk "plane"
      [("M", [0 + 1 * sin 0, 0 - 1 * cos 0]), ("L", [0 - 1 * sin 0, 0 + 1 * cos 0])] 1 ∈
      planePaths 0 0 0 1 none := by
    simp only [planePaths, Option.getD_none, List.mem_cons]
    left; trivial
  apply zorder_discipline
  exact Or.inl ⟨0, 0, 0, 1, none, hmem⟩

end DrawMagnets
